import Mathlib

/-!
# Client-side form engine of the resume generator (`static/script.js`)

A shallow embedding of the script's pure logic (URL validation and blur-time
normalisation, form validation, progress computation) and of its two submit
handlers, followed by the properties proved about them.

JavaScript strings are modelled as lists of UTF-16 code units, so that
`length`, `trim`, `startsWith`, `includes`, `replace` and the regular
expressions act on exactly the units the engine sees.
-/

namespace ResumeGenerator

/-! ## JavaScript strings -/

/-- A JavaScript string: the sequence of its UTF-16 code units. -/
abbrev JSString := List Nat

/-- Code units of a source literal (every literal of the script lies in the
Basic Multilingual Plane, one unit per character). -/
def js (s : String) : JSString := s.toList.map Char.toNat

/-- ECMAScript `WhiteSpace` and `LineTerminator` code units: what
`String.prototype.trim` removes and what `\s` matches. -/
def isWhiteSpace (c : Nat) : Bool :=
  c == 9 || c == 10 || c == 11 || c == 12 || c == 13 || c == 32 || c == 160 ||
  c == 0x1680 || (decide (0x2000 ≤ c) && decide (c ≤ 0x200A)) ||
  c == 0x2028 || c == 0x2029 || c == 0x202F || c == 0x205F || c == 0x3000 ||
  c == 0xFEFF

/-- `String.prototype.trim`. -/
def trim (s : JSString) : JSString :=
  (s.dropWhile isWhiteSpace).rdropWhile isWhiteSpace

/-- `String.prototype.startsWith`. -/
def startsWith (s pat : JSString) : Bool := pat.isPrefixOf s

/-- `String.prototype.includes`. -/
def includes : JSString → JSString → Bool
  | [], pat => pat.isPrefixOf []
  | c :: s, pat => pat.isPrefixOf (c :: s) || includes s pat

/-- Truthiness of a property that is either `undefined` or a string. -/
def truthy : Option JSString → Bool
  | none => false
  | some s => !s.isEmpty

/-- `ToString` of a property that is either `undefined` or a string. -/
def toStr : Option JSString → JSString
  | none => js "undefined"
  | some s => s

/-! ## Regular expressions -/

/-- The fragment of regular expressions the script uses. -/
inductive Regex where
  | empty : Regex
  | eps : Regex
  | cls (p : Nat → Bool) : Regex
  | seq (a b : Regex) : Regex
  | alt (a b : Regex) : Regex
  | star (a : Regex) : Regex

namespace Regex

/-- A literal character. -/
def chr (c : Char) : Regex := cls (fun x => x == c.toNat)

/-- A literal run of characters. -/
def lit (s : String) : Regex := s.toList.foldr (fun c r => seq (chr c) r) eps

/-- `r?`. -/
def opt (r : Regex) : Regex := alt r eps

/-- `r+`. -/
def plus (r : Regex) : Regex := seq r (star r)

/-- Whether the expression matches the empty string. -/
def nullable : Regex → Bool
  | empty => false
  | eps => true
  | cls _ => false
  | seq a b => a.nullable && b.nullable
  | alt a b => a.nullable || b.nullable
  | star _ => true

/-- Brzozowski derivative with respect to one code unit. -/
def deriv : Regex → Nat → Regex
  | empty, _ => empty
  | eps, _ => empty
  | cls p, c => if p c then eps else empty
  | seq a b, c =>
      if a.nullable then alt (seq (a.deriv c) b) (b.deriv c) else seq (a.deriv c) b
  | alt a b, c => alt (a.deriv c) (b.deriv c)
  | star a, c => seq (a.deriv c) (star a)

/-- Whether the whole string matches: `/^r$/.test(s)`. -/
def test : Regex → JSString → Bool
  | r, [] => r.nullable
  | r, c :: s => test (r.deriv c) s

/-- The set of strings an expression denotes. -/
def lang : Regex → Language Nat
  | empty => 0
  | eps => 1
  | cls p => {s | ∃ c, s = [c] ∧ p c = true}
  | seq a b => a.lang * b.lang
  | alt a b => a.lang + b.lang
  | star a => KStar.kstar a.lang

end Regex

/-! ## URL and e-mail validation (script.js, lines 66-89) -/

/-- The class `\w`: ASCII letters, digits and the underscore. -/
def isWordChar (c : Nat) : Bool :=
  (decide (97 ≤ c) && decide (c ≤ 122)) || (decide (65 ≤ c) && decide (c ≤ 90)) ||
  (decide (48 ≤ c) && decide (c ≤ 57)) || c == 95

/-- The class `[\w-]`. -/
def isWordOrHyphen (c : Nat) : Bool := isWordChar c || c == 45

/-- The class `[^\s@]`. -/
def isNotSpaceOrAt (c : Nat) : Bool := !(isWhiteSpace c || c == 64)

/-- The class `[a-zA-Z0-9-]`, whose complement the blur handlers delete. -/
def isHandleChar (c : Nat) : Bool :=
  (decide (97 ≤ c) && decide (c ≤ 122)) || (decide (65 ≤ c) && decide (c ≤ 90)) ||
  (decide (48 ≤ c) && decide (c ≤ 57)) || c == 45

/-- The expression `/^https:\/\/(www\.)?linkedin\.com\/in\/[\w-]+\/?$/`. -/
def linkedinPattern : Regex :=
  .seq (.lit "https://") (.seq (.opt (.lit "www.")) (.seq (.lit "linkedin.com/in/")
    (.seq (.plus (.cls isWordOrHyphen)) (.opt (.chr '/')))))

/-- The expression `/^https:\/\/(www\.)?github\.com\/[\w-]+\/?$/`. -/
def githubPattern : Regex :=
  .seq (.lit "https://") (.seq (.opt (.lit "www.")) (.seq (.lit "github.com/")
    (.seq (.plus (.cls isWordOrHyphen)) (.opt (.chr '/')))))

/-- The expression `/^[^\s@]+@[^\s@]+\.[^\s@]+$/`. -/
def emailRegex : Regex :=
  .seq (.plus (.cls isNotSpaceOrAt)) (.seq (.chr '@') (.seq (.plus (.cls isNotSpaceOrAt))
    (.seq (.chr '.') (.plus (.cls isNotSpaceOrAt)))))

/-- `isValidLinkedInURL`. -/
def isValidLinkedInURL (url : JSString) : Bool := linkedinPattern.test url

/-- `isValidGitHubURL`. -/
def isValidGitHubURL (url : JSString) : Bool := githubPattern.test url

/-- `isValidEmail`. -/
def isValidEmail (email : JSString) : Bool := emailRegex.test email

/-! ## Blur-time URL formatting (script.js, lines 92-137) -/

/-- The value of the LinkedIn field after its `blur` listener ran on a field
holding `fieldValue`. -/
def linkedinBlur (fieldValue : JSString) : JSString :=
  let value := trim fieldValue
  if !value.isEmpty && !startsWith value (js "http") then
    if includes value (js "linkedin.com/in/") then
      js "https://" ++ value
    else if !includes value (js "linkedin.com") then
      let username := value.filter isHandleChar
      if !username.isEmpty then js "https://linkedin.com/in/" ++ username
      else fieldValue
    else fieldValue
  else fieldValue

/-- The value of the GitHub field after its `blur` listener ran on a field
holding `fieldValue`. -/
def githubBlur (fieldValue : JSString) : JSString :=
  let value := trim fieldValue
  if !value.isEmpty && !startsWith value (js "http") then
    if includes value (js "github.com/") then
      js "https://" ++ value
    else if !includes value (js "github.com") then
      let username := value.filter isHandleChar
      if !username.isEmpty then js "https://github.com/" ++ username
      else fieldValue
    else fieldValue
  else fieldValue

/-- The two profile services with a blur handler. -/
inductive Service where
  | linkedin : Service
  | github : Service
  deriving DecidableEq, Repr

/-- The blur handler of a service. -/
def Service.blur : Service → JSString → JSString
  | .linkedin => linkedinBlur
  | .github => githubBlur

/-- The validity test of a service. -/
def Service.isValid : Service → JSString → Bool
  | .linkedin => isValidLinkedInURL
  | .github => isValidGitHubURL

/-- Host of a service. -/
def Service.host : Service → JSString
  | .linkedin => js "linkedin.com"
  | .github => js "github.com"

/-- Host, slash and path segment that precede the handle in a profile URL. -/
def Service.hostPath : Service → JSString
  | .linkedin => js "linkedin.com/in/"
  | .github => js "github.com/"

/-! ## Form validation (script.js, lines 207-245) -/

/-- The object built by `Object.fromEntries(formData.entries())`: a property
is either absent (`undefined`) or a string. -/
abbrev FormData := String → Option JSString

/-- `validateEnhancedForm`. The built-in `new URL(...)` behind `isValidURL`
is taken as the parameter `isValidURL`. -/
def validateEnhancedForm (isValidURL : JSString → Bool) (formData : FormData) :
    List JSString :=
  let errors : List JSString := []
  let errors :=
    if !truthy (formData "name") || decide ((toStr (formData "name")).length < 2) then
      errors ++ [js "Name must be at least 2 characters long"] else errors
  let errors :=
    if !truthy (formData "email") || !isValidEmail (toStr (formData "email")) then
      errors ++ [js "Please enter a valid email address"] else errors
  let errors :=
    if !truthy (formData "job_title") ||
        decide ((toStr (formData "job_title")).length < 2) then
      errors ++ [js "Job title is required"] else errors
  let errors :=
    if !truthy (formData "experience") ||
        decide ((toStr (formData "experience")).length < 20) then
      errors ++ [js "Please provide detailed work experience (at least 20 characters)"]
    else errors
  let errors :=
    if !truthy (formData "skills") || decide ((toStr (formData "skills")).length < 10) then
      errors ++ [js "Please list your skills (at least 10 characters)"] else errors
  let errors :=
    if truthy (formData "linkedin") && !isValidLinkedInURL (toStr (formData "linkedin")) then
      errors ++ [js "Please enter a valid LinkedIn URL"] else errors
  let errors :=
    if truthy (formData "github") && !isValidGitHubURL (toStr (formData "github")) then
      errors ++ [js "Please enter a valid GitHub URL"] else errors
  let errors :=
    if truthy (formData "portfolio") && !isValidURL (toStr (formData "portfolio")) then
      errors ++ [js "Please enter a valid portfolio URL"] else errors
  errors

/-! ## Submit handlers (script.js, lines 248-404) -/

/-- The decoded JSON body of a response, as far as the handlers read it:
`success` is the truthiness of `result.success`, `error` is absent or a string,
the other fields are the texts written to the page. -/
structure Payload where
  success : Bool
  content : JSString
  template : JSString
  pages : JSString
  download_url : JSString
  error : Option JSString

/-- What the awaited network call does. -/
inductive NetOutcome where
  /-- `fetch` resolves and `response.json()` resolves with `result`. -/
  | resolved (result : Payload) : NetOutcome
  /-- `fetch` resolves but `response.json()` rejects with an error of this message. -/
  | undecodable (message : JSString) : NetOutcome
  /-- `fetch` itself rejects with an error of this message. -/
  | rejected (message : JSString) : NetOutcome

/-- The observable steps of a submit handler, in execution order. -/
inductive Action where
  | preventDefault : Action
  | alert (message : JSString) : Action
  | consoleError (message : JSString) : Action
  | setDisabled (disabled : Bool) : Action
  | setBtnTextDisplay (display : JSString) : Action
  | setLoadingDisplay (display : JSString) : Action
  | fetch (url : JSString) (body : FormData) : Action
  | setTextContent (id : String) (text : JSString) : Action
  | setResultDisplay (display : JSString) : Action
  | setFormWrapperDisplay (display : JSString) : Action
  | setDownloadTarget (url : JSString) : Action
  | scrollResultIntoView : Action

/-- Is the step a network request. -/
def Action.isFetch : Action → Bool
  | .fetch _ _ => true
  | _ => false

/-- Is the step the one that disables the generate button. -/
def Action.isDisable : Action → Bool
  | .setDisabled true => true
  | _ => false

/-- The text of an alert, if the step is one. -/
def Action.alertText : Action → Option JSString
  | .alert m => some m
  | _ => none

/-- The part of the page the submit handlers write to. -/
structure View where
  btnDisabled : Bool
  btnTextDisplay : JSString
  loadingDisplay : JSString
  resultDisplay : JSString
  formWrapperDisplay : JSString
  textContent : String → JSString
  downloadTarget : Option JSString

/-- Effect of one step on the page. -/
def View.step (v : View) : Action → View
  | .setDisabled b => { v with btnDisabled := b }
  | .setBtnTextDisplay d => { v with btnTextDisplay := d }
  | .setLoadingDisplay d => { v with loadingDisplay := d }
  | .setTextContent id t =>
      { v with textContent := fun i => if i = id then t else v.textContent i }
  | .setResultDisplay d => { v with resultDisplay := d }
  | .setFormWrapperDisplay d => { v with formWrapperDisplay := d }
  | .setDownloadTarget u => { v with downloadTarget := some u }
  | _ => v

/-- The page after a handler ran. -/
def View.run (v : View) (actions : List Action) : View := actions.foldl View.step v

/-- `Array.prototype.join`. -/
def join (sep : JSString) (parts : List JSString) : JSString := sep.intercalate parts

/-- The `catch` block: log and alert `label + error.message`. -/
def catchBlock (label message : JSString) : List Action :=
  [.consoleError message, .alert (label ++ message)]

/-- The `finally` block: reset the button state. -/
def finallyBlock : List Action :=
  [.setDisabled false, .setBtnTextDisplay (js "inline"), .setLoadingDisplay (js "none")]

/-- The `submit` listener of the resume form, run on the form data `data`
with the network behaving as `net`. -/
def resumeSubmit (isValidURL : JSString → Bool) (data : FormData) (net : NetOutcome) :
    List Action :=
  let errors := validateEnhancedForm isValidURL data
  if errors.length > 0 then
    [.preventDefault,
     .alert (js "Please fix the following errors:\n• " ++ join (js "\n• ") errors)]
  else
    [.preventDefault, .setDisabled true, .setBtnTextDisplay (js "none"),
     .setLoadingDisplay (js "inline-flex"), .fetch (js "/generate-resume") data]
    ++ (match net with
        | .resolved result =>
            if result.success then
              [.setTextContent "resumeContent" result.content,
               .setTextContent "templateUsed" result.template,
               .setTextContent "pageCount" result.pages,
               .setResultDisplay (js "block"),
               .setFormWrapperDisplay (js "none"),
               .setDownloadTarget result.download_url,
               .scrollResultIntoView]
            else
              catchBlock (js "Error generating resume: ")
                (if truthy result.error then toStr result.error
                 else js "Failed to generate resume")
        | .undecodable message => catchBlock (js "Error generating resume: ") message
        | .rejected message => catchBlock (js "Error generating resume: ") message)
    ++ finallyBlock

/-- The `requiredFields` of the cover-letter handler. -/
def requiredFields : List String :=
  ["name", "email", "company", "position", "experience", "skills"]

/-- The filter predicate `!data[field] || data[field].trim() === ''`. -/
def isMissing (data : FormData) (field : String) : Bool :=
  !truthy (data field) || (trim (toStr (data field))).isEmpty

/-- The `missingFields` of the cover-letter handler. -/
def missingFields (data : FormData) : List String := requiredFields.filter (isMissing data)

/-- The `submit` listener of the cover-letter form, run on the form data
`data` with the network behaving as `net`. -/
def coverLetterSubmit (data : FormData) (net : NetOutcome) : List Action :=
  if (missingFields data).length > 0 then
    [.preventDefault,
     .alert (js "Please fill in all required fields: " ++
       join (js ", ") ((missingFields data).map js))]
  else if !isValidEmail (toStr (data "email")) then
    [.preventDefault, .alert (js "Please enter a valid email address")]
  else
    [.preventDefault, .setDisabled true, .setBtnTextDisplay (js "none"),
     .setLoadingDisplay (js "inline-flex"), .fetch (js "/generate-cover-letter") data]
    ++ (match net with
        | .resolved result =>
            if result.success then
              [.setTextContent "coverLetterContent" result.content,
               .setResultDisplay (js "block"),
               .setFormWrapperDisplay (js "none"),
               .setDownloadTarget result.download_url,
               .scrollResultIntoView]
            else
              catchBlock (js "Error generating cover letter: ")
                (if truthy result.error then toStr result.error
                 else js "Failed to generate cover letter")
        | .undecodable message => catchBlock (js "Error generating cover letter: ") message
        | .rejected message => catchBlock (js "Error generating cover letter: ") message)
    ++ finallyBlock

/-- The alerts a handler raised, in order. -/
def alerts (actions : List Action) : List JSString := actions.filterMap Action.alertText

/-- `Object.fromEntries`: a later entry overrides an earlier one of the same key. -/
def fromEntries (entries : List (String × JSString)) : FormData :=
  entries.foldl (fun data e => fun k => if k = e.1 then some e.2 else data k) (fun _ => none)

/-- The forms `updateFormProgress` iterates over, each with a submit handler. -/
inductive FormId where
  | resumeForm : FormId
  | coverLetterForm : FormId
  deriving DecidableEq, Repr

/-- The submit handler of a form. -/
def submit (isValidURL : JSString → Bool) : FormId → FormData → NetOutcome → List Action
  | .resumeForm => resumeSubmit isValidURL
  | .coverLetterForm => coverLetterSubmit

/-- Whether a handler takes one of its validation exits: the guard
`errors.length > 0` of the resume handler, the guards `missingFields.length > 0`
and `!isValidEmail(data.email)` of the cover-letter handler. -/
def hasValidationError (isValidURL : JSString → Bool) : FormId → FormData → Bool
  | .resumeForm, data => decide ((validateEnhancedForm isValidURL data).length > 0)
  | .coverLetterForm, data =>
      decide ((missingFields data).length > 0) || !isValidEmail (toStr (data "email"))

/-- The literal each `catch` block puts in front of `error.message`. -/
def errorLabel : FormId → JSString
  | .resumeForm => js "Error generating resume: "
  | .coverLetterForm => js "Error generating cover letter: "

/-- A page in its resting state: button enabled, label shown, loading
indicator and result section hidden. -/
def restingPage : View where
  btnDisabled := false
  btnTextDisplay := js "inline"
  loadingDisplay := js "none"
  resultDisplay := js "none"
  formWrapperDisplay := js "block"
  textContent := fun _ => []
  downloadTarget := none

/-! ## Progress (script.js, lines 2-64) -/

/-- An `input` or `textarea` element of the page: its `type`, its `name`
attribute when it has one, its `value`, and whether it matches `:checked`. -/
structure Input where
  type : JSString
  nameAttr : Option JSString
  value : JSString
  checked : Bool

/-- The `name` property of an element: the value of the attribute, the empty
string when the attribute is absent. -/
def Input.name (input : Input) : JSString := input.nameAttr.getD []

/-- The selector text built by the template literal
`input[name="${input.name}"]:checked`. -/
def checkedSelector (name : JSString) : JSString :=
  js "input[name=\"" ++ name ++ js "\"]:checked"

/-- The counting callback of the resume branch. The built-in
`document.querySelector` is the parameter `querySelector`: on a selector text
it answers `none` when the engine throws, and otherwise whether an element
was found. An exception ends the loop without a count. -/
def countResume (querySelector : JSString → Option Bool) (filledInputs : Nat)
    (input : Input) : Option Nat :=
  if input.type == js "radio" then
    match querySelector (checkedSelector input.name) with
    | none => none
    | some found => if found then some (filledInputs + 1) else some filledInputs
  else if !(trim input.value).isEmpty then some (filledInputs + 1)
  else some filledInputs

/-- The counting callback of the other branch. -/
def countRequired (filledInputs : Nat) (input : Input) : Nat :=
  if !(trim input.value).isEmpty then filledInputs + 1 else filledInputs

/-- The `filledInputs` counter after the loop of `calculateProgress`. -/
def filledInputs (querySelector : JSString → Option Bool) (formId : FormId)
    (allImportantInputs requiredInputs : List Input) : Option Nat :=
  if formId = .resumeForm then allImportantInputs.foldlM (countResume querySelector) 0
  else some (requiredInputs.foldl countRequired 0)

/-- The `totalInputs` of `calculateProgress`. -/
def totalInputs (formId : FormId) (allImportantInputs requiredInputs : List Input) : Nat :=
  if formId = .resumeForm then allImportantInputs.length else requiredInputs.length

/-- The `progress` of `calculateProgress`, `(filledInputs / totalInputs) * 100`, with the
arithmetic read over the rationals; `none` when the loop ended in an exception. -/
def calculateProgress (querySelector : JSString → Option Bool) (formId : FormId)
    (allImportantInputs requiredInputs : List Input) : Option ℚ :=
  match filledInputs querySelector formId allImportantInputs requiredInputs with
  | none => none
  | some filled =>
      some (((filled : ℚ) / (totalInputs formId allImportantInputs requiredInputs : ℚ)) * 100)

/-- The inputs counted for a form. -/
def tracked (formId : FormId) (allImportantInputs requiredInputs : List Input) : List Input :=
  if formId = .resumeForm then allImportantInputs else requiredInputs

/-- The test under which `calculateProgress` counts a field: on the resume
form a field of type `radio` counts when the query for its selector finds an
element, any other field when its trimmed value is non-empty; on the other
form every field counts when its trimmed value is non-empty. -/
def isCounted (querySelector : JSString → Option Bool) (formId : FormId) (input : Input) :
    Bool :=
  if formId = .resumeForm then
    if input.type == js "radio" then querySelector (checkedSelector input.name) == some true
    else !(trim input.value).isEmpty
  else !(trim input.value).isEmpty

/-- The answer of the selector engine for `input[name="..."]:checked` on a
page whose `input` elements are `page`, following the Selectors standard for a
name without `"`, `\`, NUL or line break (the selector then holds the name
literally): an element is found when some element of the page is checked and
has a `name` attribute equal to the name. -/
def queryChecked (page : List Input) (selector : JSString) : Option Bool :=
  some (page.any (fun e =>
    e.checked && (match e.nameAttr with
      | some n => checkedSelector n == selector
      | none => false)))

/-! ## Reference statements taken from the specification -/

/-- The shape the specification gives to a valid profile URL:
`https://`, an optional `www.`, the host and path of the service, a non-empty
handle whose code units all satisfy `handleOk`, an optional single `/`. -/
def ProfileShape (handleOk : Nat → Bool) (hostPath : JSString) (u : JSString) : Prop :=
  ∃ w h t : JSString, u = js "https://" ++ w ++ hostPath ++ h ++ t ∧
    (w = [] ∨ w = js "www.") ∧ h ≠ [] ∧ (∀ c ∈ h, handleOk c = true) ∧
    (t = [] ∨ t = js "/")

/-- An ASCII letter. -/
def isAsciiLetter (c : Nat) : Bool :=
  (decide (97 ≤ c) && decide (c ≤ 122)) || (decide (65 ≤ c) && decide (c ≤ 90))

/-- A code unit allowed inside a URI scheme after its first letter: a letter,
a digit, `+`, `-` or `.`. -/
def isSchemeChar (c : Nat) : Bool :=
  isAsciiLetter c || (decide (48 ≤ c) && decide (c ≤ 57)) || c == 43 || c == 45 || c == 46

/-- The specification's "starts with a scheme": the value begins with a URI
scheme, a letter followed by letters, digits, `+`, `-` or `.`, and then a
colon (`https:`, `http:`, `HTTP:`, `ftp:`). -/
def startsWithScheme : JSString → Bool
  | [] => false
  | c :: rest => isAsciiLetter c && ((rest.dropWhile isSchemeChar).head? == some 58)

/-- Steps (2) and (3) of the specification's rule, on a field holding `raw`
whose trimmed value is `value`: a value that contains the host and path of
the service gets `https://` in front; anything else is stripped to
`[A-Za-z0-9-]` and, if something remains, becomes the canonical URL, else the
field is left alone. -/
def referenceRewrite (svc : Service) (raw value : JSString) : JSString :=
  if includes value svc.hostPath then js "https://" ++ value
  else
    let handle := value.filter isHandleChar
    if !handle.isEmpty then js "https://" ++ svc.hostPath ++ handle else raw

/-- The three-step normalisation rule as the specification words it, on a
field holding `raw`: (1) a trimmed value that starts with a scheme leaves the
field alone; otherwise steps (2) and (3) apply. -/
def referenceNormalize (svc : Service) (raw : JSString) : JSString :=
  if startsWithScheme (trim raw) then raw else referenceRewrite svc raw (trim raw)

/-- The specification's notion of a filled field: a radio button is filled
when some radio button sharing its name is checked, any other field when its
trimmed value is non-empty. -/
def filledPerSpec (page : List Input) (input : Input) : Bool :=
  if input.type == js "radio" then
    page.any (fun e => e.type == js "radio" && e.name == input.name && e.checked)
  else !(trim input.value).isEmpty

/-! ## Correctness of the matcher -/

namespace Regex

theorem mem_lang_cls (p : Nat → Bool) (s : List Nat) :
    s ∈ (cls p).lang ↔ ∃ c, s = [c] ∧ p c = true := Iff.rfl

theorem nullable_iff (r : Regex) : r.nullable = true ↔ [] ∈ r.lang := by
  induction r with
  | empty => simp [nullable, lang, Language.not_mem_zero]
  | eps => simp [nullable, lang, Language.mem_one]
  | cls p => simp [nullable, mem_lang_cls]
  | seq a b iha ihb => simp [nullable, lang, Language.mem_mul, iha, ihb]
  | alt a b iha ihb => simp [nullable, lang, Language.mem_add, iha, ihb]
  | star a _ => simp [nullable, lang, Language.nil_mem_kstar]

theorem cons_mem_mul_iff (A B : Language Nat) (c : Nat) (s : List Nat) :
    c :: s ∈ A * B ↔
      ([] ∈ A ∧ c :: s ∈ B) ∨ ∃ u v, c :: u ∈ A ∧ v ∈ B ∧ s = u ++ v := by
  rw [Language.mem_mul]
  constructor
  · rintro ⟨x, hx, y, hy, hxy⟩
    cases x with
    | nil => left; simp at hxy; subst hxy; exact ⟨hx, hy⟩
    | cons d u =>
      right
      simp at hxy
      obtain ⟨rfl, rfl⟩ := hxy
      exact ⟨u, y, hx, hy, rfl⟩
  · rintro (⟨h1, h2⟩ | ⟨u, v, h1, h2, rfl⟩)
    · exact ⟨[], h1, c :: s, h2, rfl⟩
    · exact ⟨c :: u, h1, v, h2, rfl⟩

theorem cons_mem_kstar_iff (A : Language Nat) (c : Nat) (s : List Nat) :
    c :: s ∈ KStar.kstar A ↔ ∃ u v, c :: u ∈ A ∧ v ∈ KStar.kstar A ∧ s = u ++ v := by
  constructor
  · intro h
    rw [Language.mem_kstar_iff_exists_nonempty] at h
    obtain ⟨S, hS, hall⟩ := h
    cases S with
    | nil => simp at hS
    | cons y S =>
      have hy := hall y (List.mem_cons_self _ _)
      cases y with
      | nil => exact absurd rfl hy.2
      | cons d u =>
        simp at hS
        obtain ⟨rfl, rfl⟩ := hS
        refine ⟨u, S.flatten, hy.1, ?_, rfl⟩
        exact Language.join_mem_kstar (fun z hz => (hall z (List.mem_cons_of_mem _ hz)).1)
  · rintro ⟨u, v, h1, h2, rfl⟩
    rw [← Language.one_add_self_mul_kstar_eq_kstar, Language.mem_add]
    right
    exact Language.append_mem_mul h1 h2

theorem mem_lang_deriv (r : Regex) (c : Nat) (s : List Nat) :
    s ∈ (r.deriv c).lang ↔ c :: s ∈ r.lang := by
  induction r generalizing s with
  | empty => simp [deriv, lang, Language.not_mem_zero]
  | eps => simp [deriv, lang, Language.not_mem_zero, Language.mem_one]
  | cls p =>
    rw [mem_lang_cls]
    by_cases hp : p c = true
    · simp only [deriv, lang, hp, if_true, Language.mem_one]
      constructor
      · rintro rfl
        exact ⟨c, rfl, hp⟩
      · rintro ⟨d, hd, _⟩
        exact (List.cons.inj hd).2
    · simp [deriv, lang, hp, Language.not_mem_zero]
  | seq a b iha ihb =>
    simp only [lang, cons_mem_mul_iff, ← nullable_iff]
    cases hn : a.nullable with
    | true =>
      simp only [deriv, hn, if_true, lang, Language.mem_add, Language.mem_mul, iha, ihb,
        true_and]
      constructor
      · rintro (⟨u, hu, v, hv, rfl⟩ | h)
        · exact Or.inr ⟨u, v, hu, hv, rfl⟩
        · exact Or.inl h
      · rintro (h | ⟨u, v, hu, hv, rfl⟩)
        · exact Or.inr h
        · exact Or.inl ⟨u, hu, v, hv, rfl⟩
    | false =>
      simp only [deriv, hn, lang, Language.mem_mul, iha, false_and, false_or,
        Bool.false_eq_true, if_false]
      constructor
      · rintro ⟨u, hu, v, hv, rfl⟩
        exact ⟨u, v, hu, hv, rfl⟩
      · rintro ⟨u, v, hu, hv, rfl⟩
        exact ⟨u, hu, v, hv, rfl⟩
  | alt a b iha ihb => simp [deriv, lang, Language.mem_add, iha, ihb]
  | star a iha =>
    simp only [deriv, lang, cons_mem_kstar_iff, Language.mem_mul, iha]
    constructor
    · rintro ⟨u, hu, v, hv, rfl⟩
      exact ⟨u, v, hu, hv, rfl⟩
    · rintro ⟨u, v, hu, hv, rfl⟩
      exact ⟨u, hu, v, hv, rfl⟩

theorem test_iff (r : Regex) (s : JSString) : r.test s = true ↔ s ∈ r.lang := by
  induction s generalizing r with
  | nil => simp [test, nullable_iff]
  | cons c s ih => simp [test, ih, mem_lang_deriv]

end Regex

/-! ## Languages of the building blocks -/

namespace Regex

theorem mem_lang_seq (a b : Regex) (x : List Nat) :
    x ∈ (seq a b).lang ↔ ∃ u v, u ∈ a.lang ∧ v ∈ b.lang ∧ x = u ++ v := by
  simp only [lang, Language.mem_mul]
  constructor
  · rintro ⟨u, hu, v, hv, rfl⟩
    exact ⟨u, v, hu, hv, rfl⟩
  · rintro ⟨u, v, hu, hv, rfl⟩
    exact ⟨u, hu, v, hv, rfl⟩

theorem mem_lang_chr (c : Char) (x : List Nat) : x ∈ (chr c).lang ↔ x = [c.toNat] := by
  simp [chr, mem_lang_cls]

theorem mem_lang_opt (r : Regex) (x : List Nat) :
    x ∈ (opt r).lang ↔ x ∈ r.lang ∨ x = [] := by
  simp [opt, lang, Language.mem_add, Language.mem_one]

theorem mem_lang_foldr (l : List Char) (x : List Nat) :
    x ∈ (l.foldr (fun c r => seq (chr c) r) eps).lang ↔ x = l.map Char.toNat := by
  induction l generalizing x with
  | nil => simp [lang, Language.mem_one]
  | cons c l ih =>
    simp only [List.foldr_cons, mem_lang_seq, mem_lang_chr, ih, List.map_cons]
    constructor
    · rintro ⟨u, v, rfl, rfl, rfl⟩
      rfl
    · rintro rfl
      exact ⟨_, _, rfl, rfl, rfl⟩

theorem mem_lang_lit (s : String) (x : List Nat) : x ∈ (lit s).lang ↔ x = js s :=
  mem_lang_foldr s.toList x

theorem mem_kstar_cls (p : Nat → Bool) (x : List Nat) :
    x ∈ (star (cls p)).lang ↔ ∀ c ∈ x, p c = true := by
  induction x with
  | nil => simp [lang, Language.nil_mem_kstar]
  | cons c x ih =>
    have ih' : x ∈ KStar.kstar (cls p).lang ↔ ∀ c ∈ x, p c = true := ih
    simp only [lang] at ih ⊢
    rw [cons_mem_kstar_iff]
    constructor
    · rintro ⟨u, v, hu, hv, rfl⟩
      have hu' := (mem_lang_cls p (c :: u)).1 hu
      obtain ⟨d, hd, hpd⟩ := hu'
      obtain ⟨rfl, rfl⟩ := List.cons.inj hd
      intro e he
      rcases List.mem_cons.1 he with rfl | he
      · exact hpd
      · exact (ih'.1 hv) e (by simpa using he)
    · intro h
      refine ⟨[], x, (mem_lang_cls p [c]).2 ⟨c, rfl, h c (List.mem_cons_self _ _)⟩, ?_, rfl⟩
      exact ih'.2 (fun e he => h e (List.mem_cons_of_mem _ he))

theorem mem_lang_plus_cls (p : Nat → Bool) (x : List Nat) :
    x ∈ (plus (cls p)).lang ↔ x ≠ [] ∧ ∀ c ∈ x, p c = true := by
  rw [plus, mem_lang_seq]
  constructor
  · rintro ⟨u, v, hu, hv, rfl⟩
    obtain ⟨d, rfl, hpd⟩ := (mem_lang_cls p u).1 hu
    refine ⟨by simp, ?_⟩
    intro e he
    rcases List.mem_cons.1 he with rfl | he
    · exact hpd
    · exact (mem_kstar_cls p v).1 hv e he
  · rintro ⟨hne, h⟩
    cases x with
    | nil => exact absurd rfl hne
    | cons c x =>
      exact ⟨[c], x, (mem_lang_cls p [c]).2 ⟨c, rfl, h c (List.mem_cons_self _ _)⟩,
        (mem_kstar_cls p x).2 (fun e he => h e (List.mem_cons_of_mem _ he)), rfl⟩

/-- Language of the profile patterns. -/
theorem mem_lang_profile (hostPath : String) (p : Nat → Bool) (x : List Nat) :
    x ∈ (seq (lit "https://") (seq (opt (lit "www.")) (seq (lit hostPath)
      (seq (plus (cls p)) (opt (chr '/')))))).lang ↔ ProfileShape p (js hostPath) x := by
  simp only [mem_lang_seq, mem_lang_lit, mem_lang_opt, mem_lang_plus_cls, mem_lang_chr,
    ProfileShape]
  constructor
  · rintro ⟨_, _, rfl, ⟨w, _, hw, ⟨_, _, rfl, ⟨h, t, ⟨hne, hall⟩, ht, rfl⟩, rfl⟩, rfl⟩, rfl⟩
    refine ⟨w, h, t, by simp [List.append_assoc], hw.symm, hne, hall, ?_⟩
    rcases ht with ht | ht
    · right; exact ht
    · left; exact ht
  · rintro ⟨w, h, t, rfl, hw, hne, hall, ht⟩
    refine ⟨_, _, rfl, ⟨w, _, hw.symm, ⟨_, _, rfl, ⟨h, t, ⟨hne, hall⟩, ?_, rfl⟩, rfl⟩, rfl⟩, ?_⟩
    · rcases ht with ht | ht
      · right; exact ht
      · left; exact ht
    · simp [List.append_assoc]

end Regex


/-! ## Profile URL validity -/

theorem isValidLinkedInURL_iff (u : JSString) :
    isValidLinkedInURL u = true ↔ ProfileShape isWordOrHyphen (js "linkedin.com/in/") u := by
  rw [isValidLinkedInURL, Regex.test_iff]
  exact Regex.mem_lang_profile _ _ _

theorem isValidGitHubURL_iff (u : JSString) :
    isValidGitHubURL u = true ↔ ProfileShape isWordOrHyphen (js "github.com/") u := by
  rw [isValidGitHubURL, Regex.test_iff]
  exact Regex.mem_lang_profile _ _ _

theorem Service.isValid_iff (svc : Service) (u : JSString) :
    svc.isValid u = true ↔ ProfileShape isWordOrHyphen svc.hostPath u := by
  cases svc
  · exact isValidLinkedInURL_iff u
  · exact isValidGitHubURL_iff u

/-- Every code unit of a string of the profile shape is one of the fixed
parts or satisfies the handle class. -/
theorem ProfileShape.mem_cases {p : Nat → Bool} {hostPath u : JSString}
    (h : ProfileShape p hostPath u) (c : Nat) (hc : c ∈ u) :
    c ∈ js "https://www./" ∨ c ∈ hostPath ∨ p c = true := by
  obtain ⟨w, hd, t, rfl, hw, -, hall, ht⟩ := h
  simp only [List.mem_append] at hc
  rcases hc with (((hc | hc) | hc) | hc) | hc
  · left
    revert hc
    have : ∀ d ∈ js "https://", d ∈ js "https://www./" := by decide
    exact this c
  · left
    rcases hw with rfl | rfl
    · simp at hc
    · revert hc
      have : ∀ d ∈ js "www.", d ∈ js "https://www./" := by decide
      exact this c
  · right; left; exact hc
  · right; right; exact hall c hc
  · left
    rcases ht with rfl | rfl
    · simp at hc
    · revert hc
      have : ∀ d ∈ js "/", d ∈ js "https://www./" := by decide
      exact this c

theorem isWordOrHyphen_of_isHandleChar (c : Nat) (h : isHandleChar c = true) :
    isWordOrHyphen c = true := by
  simp only [isHandleChar, isWordOrHyphen, isWordChar, Bool.or_eq_true, Bool.and_eq_true,
    decide_eq_true_eq, beq_iff_eq] at h ⊢
  tauto

/-! ## Blur-time normalisation -/

theorem dropWhile_append_singleton_neg (p : Nat → Bool) (a : Nat) (hp : p a = false)
    (xs : List Nat) : (xs ++ [a]).dropWhile p = xs.dropWhile p ++ [a] := by
  induction xs with
  | nil => simp [List.dropWhile, hp]
  | cons x xs ih =>
    by_cases hx : p x = true
    · simp [List.dropWhile, hx, ih]
    · simp [List.dropWhile, hx]

theorem rdropWhile_cons_neg (p : Nat → Bool) (a : Nat) (hp : p a = false) (l : List Nat) :
    (a :: l).rdropWhile p = a :: l.rdropWhile p := by
  simp [List.rdropWhile, dropWhile_append_singleton_neg p a hp]

/-- A value that begins with `https://` still begins with `http` once trimmed. -/
theorem startsWith_trim_https (v : JSString) :
    startsWith (trim (js "https://" ++ v)) (js "http") = true := by
  have e : js "https://" ++ v = 104 :: 116 :: 116 :: 112 :: (js "s://" ++ v) := rfl
  rw [e, trim]
  rw [List.dropWhile_cons_of_neg (by decide)]
  rw [rdropWhile_cons_neg _ _ (by decide), rdropWhile_cons_neg _ _ (by decide),
    rdropWhile_cons_neg _ _ (by decide), rdropWhile_cons_neg _ _ (by decide)]
  have e' : js "http" = [104, 116, 116, 112] := by decide
  simp [startsWith, e', List.isPrefixOf]

theorem linkedinBlur_of_http (x : JSString) (h : startsWith (trim x) (js "http") = true) :
    linkedinBlur x = x := by
  simp [linkedinBlur, h]

theorem githubBlur_of_http (x : JSString) (h : startsWith (trim x) (js "http") = true) :
    githubBlur x = x := by
  simp [githubBlur, h]

theorem linkedinBlur_cases (x : JSString) :
    linkedinBlur x = x ∨ ∃ v, linkedinBlur x = js "https://" ++ v := by
  unfold linkedinBlur
  simp only
  split_ifs
  · exact Or.inr ⟨_, rfl⟩
  · exact Or.inr ⟨js "linkedin.com/in/" ++ (trim x).filter isHandleChar, rfl⟩
  all_goals exact Or.inl rfl

theorem githubBlur_cases (x : JSString) :
    githubBlur x = x ∨ ∃ v, githubBlur x = js "https://" ++ v := by
  unfold githubBlur
  simp only
  split_ifs
  · exact Or.inr ⟨_, rfl⟩
  · exact Or.inr ⟨js "github.com/" ++ (trim x).filter isHandleChar, rfl⟩
  all_goals exact Or.inl rfl

/-- The scenario of the specification: `linkedin.com/in/janedoe` becomes
`https://linkedin.com/in/janedoe`, which a second blur leaves alone. -/
theorem linkedinBlur_scenario :
    linkedinBlur (js "linkedin.com/in/janedoe") = js "https://linkedin.com/in/janedoe" ∧
      linkedinBlur (js "https://linkedin.com/in/janedoe") =
        js "https://linkedin.com/in/janedoe" := by
  decide

/-- C1. Blur-time normalisation is idempotent for both services: running the
blur handler on a field it has already rewritten leaves the field as it is. -/
theorem blur_idempotent (svc : Service) (x : JSString) :
    svc.blur (svc.blur x) = svc.blur x := by
  cases svc
  · show linkedinBlur (linkedinBlur x) = linkedinBlur x
    rcases linkedinBlur_cases x with h | ⟨v, h⟩
    · rw [h, h]
    · rw [h]
      exact linkedinBlur_of_http _ (startsWith_trim_https v)
  · show githubBlur (githubBlur x) = githubBlur x
    rcases githubBlur_cases x with h | ⟨v, h⟩
    · rw [h, h]
    · rw [h]
      exact githubBlur_of_http _ (startsWith_trim_https v)

/-- C4, as amended. `isValidLinkedInURL` and `isValidGitHubURL` accept exactly
the strings made of `https://`, an optional `www.`, the host and path of the
service, a non-empty handle of ASCII letters, digits, underscores and hyphens
(the class `[\w-]`), and an optional single trailing `/`. -/
theorem isValid_iff_profileShape (u : JSString) :
    (isValidLinkedInURL u = true ↔
      ProfileShape isWordOrHyphen (js "linkedin.com/in/") u) ∧
    (isValidGitHubURL u = true ↔ ProfileShape isWordOrHyphen (js "github.com/") u) :=
  ⟨isValidLinkedInURL_iff u, isValidGitHubURL_iff u⟩

/-- C4, counterexample. A handle with an underscore is accepted by both
validators although it is not made of letters, digits and hyphens only. -/
theorem isValid_accepts_underscore :
    (isValidLinkedInURL (js "https://linkedin.com/in/a_b") = true ∧
      ¬ ProfileShape isHandleChar (js "linkedin.com/in/")
        (js "https://linkedin.com/in/a_b")) ∧
    (isValidGitHubURL (js "https://github.com/a_b") = true ∧
      ¬ ProfileShape isHandleChar (js "github.com/") (js "https://github.com/a_b")) := by
  refine ⟨⟨by decide, fun h => ?_⟩, ⟨by decide, fun h => ?_⟩⟩
  · have := h.mem_cases 95 (by decide)
    revert this
    decide
  · have := h.mem_cases 95 (by decide)
    revert this
    decide

theorem filter_isHandleChar_ne_nil_imp {v : JSString}
    (h : v.filter isHandleChar ≠ []) : v.isEmpty = false := by
  cases v with
  | nil => simp at h
  | cons a l => rfl

theorem profileShape_canonical (hostPath handle : JSString) (hne : handle ≠ [])
    (hall : ∀ c ∈ handle, isHandleChar c = true) :
    ProfileShape isWordOrHyphen hostPath (js "https://" ++ hostPath ++ handle) :=
  ⟨[], handle, [], by simp, Or.inl rfl, hne,
    fun c hc => isWordOrHyphen_of_isHandleChar c (hall c hc), Or.inl rfl⟩

theorem blur_bare_handle_eq (svc : Service) (x : JSString)
    (hscheme : startsWith (trim x) (js "http") = false)
    (hpath : includes (trim x) svc.hostPath = false)
    (hhost : includes (trim x) svc.host = false)
    (hhandle : (trim x).filter isHandleChar ≠ []) :
    svc.blur x = js "https://" ++ svc.hostPath ++ (trim x).filter isHandleChar := by
  have hne := filter_isHandleChar_ne_nil_imp hhandle
  have hne' : ((trim x).filter isHandleChar).isEmpty = false := by
    cases h : (trim x).filter isHandleChar with
    | nil => exact absurd h hhandle
    | cons a l => rfl
  cases svc
  · have e : js "https://linkedin.com/in/" = js "https://" ++ js "linkedin.com/in/" := by
      decide
    simp only [Service.hostPath, Service.host] at hpath hhost
    simp only [Service.blur, linkedinBlur, Service.hostPath, hne, hscheme, hpath, hhost, hne',
      e, Bool.not_false, Bool.and_self, if_true, Bool.false_eq_true, if_false]
  · have e : js "https://github.com/" = js "https://" ++ js "github.com/" := by decide
    simp only [Service.hostPath, Service.host] at hpath hhost
    simp only [Service.blur, githubBlur, Service.hostPath, hne, hscheme, hpath, hhost, hne',
      e, Bool.not_false, Bool.and_self, if_true, Bool.false_eq_true, if_false]

/-- C5, as amended. For each service, when the trimmed input does not start
with a scheme and does not start with `http` either, contains neither the
host with its path nor the bare host (`linkedin.com`, `github.com`), and keeps
at least one code unit once everything outside `[A-Za-z0-9-]` is stripped, the
blur handler rewrites the field to `https://<host>/<path><stripped handle>`
and the validator of the service accepts the result. -/
theorem blur_bare_handle (svc : Service) (x : JSString)
    (_hnoscheme : startsWithScheme (trim x) = false)
    (hhttp : startsWith (trim x) (js "http") = false)
    (hpath : includes (trim x) svc.hostPath = false)
    (hhost : includes (trim x) svc.host = false)
    (hhandle : (trim x).filter isHandleChar ≠ []) :
    svc.blur x = js "https://" ++ svc.hostPath ++ (trim x).filter isHandleChar ∧
      svc.isValid (svc.blur x) = true := by
  have h := blur_bare_handle_eq svc x hhttp hpath hhost hhandle
  refine ⟨h, ?_⟩
  rw [h, Service.isValid_iff]
  exact profileShape_canonical _ _ hhandle (fun c hc => (List.mem_filter.1 hc).2)

/-- C5, witness: the handle `jdoe` on the LinkedIn field. -/
theorem blur_bare_handle_witness :
    Service.linkedin.blur (js "jdoe") = js "https://linkedin.com/in/jdoe" ∧
      Service.linkedin.isValid (Service.linkedin.blur (js "jdoe")) = true :=
  blur_bare_handle .linkedin (js "jdoe") (by decide) (by decide) (by decide) (by decide)
    (by decide)

/-- C5, counterexample. Each of these inputs meets the three conditions of the
claim (it does not start with a scheme, the host with its path does not occur
in it, its stripped handle is non-empty), yet the blur handler leaves it as it
is and the validator rejects the result: `linkedin.com/janedoe` and
`github.com`, which contain the bare host, and `httpjdoe`, which starts with
`http` without starting with a scheme. -/
theorem blur_bare_handle_unchanged :
    (startsWithScheme (trim (js "linkedin.com/janedoe")) = false ∧
      includes (trim (js "linkedin.com/janedoe")) Service.linkedin.hostPath = false ∧
      (trim (js "linkedin.com/janedoe")).filter isHandleChar = js "linkedincomjanedoe" ∧
      Service.linkedin.blur (js "linkedin.com/janedoe") = js "linkedin.com/janedoe" ∧
      Service.linkedin.isValid (Service.linkedin.blur (js "linkedin.com/janedoe")) = false) ∧
    (startsWithScheme (trim (js "github.com")) = false ∧
      includes (trim (js "github.com")) Service.github.hostPath = false ∧
      (trim (js "github.com")).filter isHandleChar = js "githubcom" ∧
      Service.github.blur (js "github.com") = js "github.com" ∧
      Service.github.isValid (Service.github.blur (js "github.com")) = false) ∧
    (startsWithScheme (trim (js "httpjdoe")) = false ∧
      includes (trim (js "httpjdoe")) Service.linkedin.hostPath = false ∧
      includes (trim (js "httpjdoe")) Service.github.hostPath = false ∧
      (trim (js "httpjdoe")).filter isHandleChar = js "httpjdoe" ∧
      Service.linkedin.blur (js "httpjdoe") = js "httpjdoe" ∧
      Service.linkedin.isValid (Service.linkedin.blur (js "httpjdoe")) = false ∧
      Service.github.blur (js "httpjdoe") = js "httpjdoe" ∧
      Service.github.isValid (Service.github.blur (js "httpjdoe")) = false) := by
  decide

/-- What the blur handlers do, in terms of the steps of the reference rule:
a trimmed value that starts with `http` leaves the field alone; so does one
that contains the bare host without the host and path; on anything else steps
(2) and (3) of the reference rule apply. -/
theorem blur_eq_guarded_rewrite (svc : Service) (x : JSString) :
    svc.blur x =
      if startsWith (trim x) (js "http") then x
      else if !includes (trim x) svc.hostPath && includes (trim x) svc.host then x
      else referenceRewrite svc x (trim x) := by
  have e1 : js "https://linkedin.com/in/" = js "https://" ++ js "linkedin.com/in/" := by
    decide
  have e2 : js "https://github.com/" = js "https://" ++ js "github.com/" := by decide
  cases svc
  · simp only [Service.blur, linkedinBlur, referenceRewrite, Service.hostPath, Service.host,
      e1]
    cases hv : trim x with
    | nil =>
      have h1 : startsWith [] (js "http") = false := by decide
      have h2 : includes [] (js "linkedin.com/in/") = false := by decide
      have h3 : includes [] (js "linkedin.com") = false := by decide
      simp [h1, h2, h3]
    | cons a l =>
      cases startsWith (a :: l) (js "http") <;>
        cases includes (a :: l) (js "linkedin.com/in/") <;>
        cases includes (a :: l) (js "linkedin.com") <;> simp
  · simp only [Service.blur, githubBlur, referenceRewrite, Service.hostPath, Service.host,
      e2]
    cases hv : trim x with
    | nil =>
      have h1 : startsWith [] (js "http") = false := by decide
      have h2 : includes [] (js "github.com/") = false := by decide
      have h3 : includes [] (js "github.com") = false := by decide
      simp [h1, h2, h3]
    | cons a l =>
      cases startsWith (a :: l) (js "http") <;>
        cases includes (a :: l) (js "github.com/") <;>
        cases includes (a :: l) (js "github.com") <;> simp

/-- C6, as amended. For each service and every raw input whose trimmed value
starts with `http` exactly when it starts with a scheme and which, when it
does not start with `http`, does not contain the bare host (`linkedin.com`,
`github.com`) without the host and path, the blur handler equals the
three-step reference rule. -/
theorem blur_eq_referenceNormalize (svc : Service) (x : JSString)
    (hscheme : startsWithScheme (trim x) = startsWith (trim x) (js "http"))
    (hguard : startsWith (trim x) (js "http") = false →
      includes (trim x) svc.host = true → includes (trim x) svc.hostPath = true) :
    svc.blur x = referenceNormalize svc x := by
  rw [blur_eq_guarded_rewrite, referenceNormalize, hscheme]
  cases hh : startsWith (trim x) (js "http") with
  | true => simp
  | false =>
    have hg := hguard hh
    cases hp : includes (trim x) svc.hostPath with
    | true => simp
    | false =>
      cases hd : includes (trim x) svc.host with
      | true => rw [hg hd] at hp; exact absurd hp (by decide)
      | false => simp

/-- C6, witness: the input `linkedin.com/in/janedoe` with surrounding blanks. -/
theorem blur_eq_referenceNormalize_witness :
    Service.linkedin.blur (js "  linkedin.com/in/janedoe ") =
      referenceNormalize .linkedin (js "  linkedin.com/in/janedoe ") :=
  blur_eq_referenceNormalize .linkedin (js "  linkedin.com/in/janedoe ") (by decide)
    (by decide)

/-- C6, counterexample. The blur handlers and the three-step reference rule
part in three ways. On `linkedin.com/janedoe` and `www.github.com`, which
contain the bare host without its path, the handlers leave the field alone
while the rule rewrites the input as a bare handle. On `httpjdoe`, which
starts with `http` but not with a scheme, the handlers leave the field alone
while the rule rewrites it. On `ftp://linkedin.com/in/x` and
`HTTP://github.com/x`, which start with a scheme other than a leading `http`,
the handlers put `https://` in front while the rule leaves the field alone. -/
theorem blur_ne_referenceNormalize :
    (Service.linkedin.blur (js "linkedin.com/janedoe") = js "linkedin.com/janedoe" ∧
      referenceNormalize .linkedin (js "linkedin.com/janedoe") =
        js "https://linkedin.com/in/linkedincomjanedoe") ∧
    (Service.github.blur (js "www.github.com") = js "www.github.com" ∧
      referenceNormalize .github (js "www.github.com") =
        js "https://github.com/wwwgithubcom") ∧
    (Service.linkedin.blur (js "httpjdoe") = js "httpjdoe" ∧
      referenceNormalize .linkedin (js "httpjdoe") = js "https://linkedin.com/in/httpjdoe") ∧
    (Service.linkedin.blur (js "ftp://linkedin.com/in/x") =
        js "https://ftp://linkedin.com/in/x" ∧
      referenceNormalize .linkedin (js "ftp://linkedin.com/in/x") =
        js "ftp://linkedin.com/in/x") ∧
    (Service.github.blur (js "HTTP://github.com/x") = js "https://HTTP://github.com/x" ∧
      referenceNormalize .github (js "HTTP://github.com/x") = js "HTTP://github.com/x") := by
  decide

/-! ## Form validation -/

theorem ite_append_singleton (c : Bool) (errors : List JSString) (m : JSString) :
    (if c = true then errors ++ [m] else errors) = errors ++ (if c = true then [m] else []) := by
  cases c <;> simp

theorem mem_ite_singleton (c : Bool) (m x : JSString) :
    x ∈ (if c = true then [m] else []) ↔ c = true ∧ x = m := by
  cases c <;> simp

/-- C7, as amended. On resume form data with name `Jo`, email `bad`, an empty
job title, an experience shorter than 5 code units, empty skills and no
linkedin, github or portfolio value, `validateEnhancedForm` returns exactly
four messages, in this order: email format, job title required, experience
length, skills length. The two-unit name `Jo` passes the name rule. -/
theorem validateEnhancedForm_scenario (isValidURL : JSString → Bool) (formData : FormData)
    (experience : JSString)
    (hname : formData "name" = some (js "Jo"))
    (hemail : formData "email" = some (js "bad"))
    (hjob : formData "job_title" = some (js ""))
    (hexp : formData "experience" = some experience) (hlen : experience.length < 5)
    (hskills : formData "skills" = some (js ""))
    (hlinkedin : truthy (formData "linkedin") = false)
    (hgithub : truthy (formData "github") = false)
    (hportfolio : truthy (formData "portfolio") = false) :
    validateEnhancedForm isValidURL formData =
      [js "Please enter a valid email address",
       js "Job title is required",
       js "Please provide detailed work experience (at least 20 characters)",
       js "Please list your skills (at least 10 characters)"] := by
  have h1 : truthy (some (js "Jo")) = true := by decide
  have h2 : (js "Jo").length = 2 := by decide
  have h3 : isValidEmail (js "bad") = false := by decide
  have h4 : truthy (some (js "")) = false := by decide
  have h5 : experience.length < 20 := by omega
  simp [validateEnhancedForm, hname, hemail, hjob, hexp, hskills, hlinkedin, hgithub,
    hportfolio, toStr, h1, h2, h3, h4, h5]

/-- C7, witness: the scenario with the experience `abc`. -/
theorem validateEnhancedForm_scenario_witness :
    validateEnhancedForm (fun _ => true)
        (fromEntries [("name", js "Jo"), ("email", js "bad"), ("job_title", js ""),
          ("experience", js "abc"), ("skills", js "")]) =
      [js "Please enter a valid email address",
       js "Job title is required",
       js "Please provide detailed work experience (at least 20 characters)",
       js "Please list your skills (at least 10 characters)"] :=
  validateEnhancedForm_scenario _ _ (js "abc") (by decide) (by decide) (by decide)
    (by decide) (by decide) (by decide) (by decide) (by decide) (by decide)

/-- C7, counterexample. In the scenario, with the experience `abc`, the
validator returns four messages, not five, and the name message is not among
them. -/
theorem validateEnhancedForm_scenario_four :
    (validateEnhancedForm (fun _ => true)
        (fromEntries [("name", js "Jo"), ("email", js "bad"), ("job_title", js ""),
          ("experience", js "abc"), ("skills", js "")])).length = 4 ∧
    js "Name must be at least 2 characters long" ∉
      validateEnhancedForm (fun _ => true)
        (fromEntries [("name", js "Jo"), ("email", js "bad"), ("job_title", js ""),
          ("experience", js "abc"), ("skills", js "")]) := by
  decide

/-- C8, as amended. `validateEnhancedForm` reports the name error exactly when
the name is missing or its length, counted on the untrimmed value, is below 2. -/
theorem name_error_iff (isValidURL : JSString → Bool) (formData : FormData) :
    js "Name must be at least 2 characters long" ∈ validateEnhancedForm isValidURL formData ↔
      ∀ name, formData "name" = some name → name.length < 2 := by
  have n2 : js "Name must be at least 2 characters long" ≠
      js "Please enter a valid email address" := by decide
  have n3 : js "Name must be at least 2 characters long" ≠ js "Job title is required" := by
    decide
  have n4 : js "Name must be at least 2 characters long" ≠
      js "Please provide detailed work experience (at least 20 characters)" := by decide
  have n5 : js "Name must be at least 2 characters long" ≠
      js "Please list your skills (at least 10 characters)" := by decide
  have n6 : js "Name must be at least 2 characters long" ≠
      js "Please enter a valid LinkedIn URL" := by decide
  have n7 : js "Name must be at least 2 characters long" ≠
      js "Please enter a valid GitHub URL" := by decide
  have n8 : js "Name must be at least 2 characters long" ≠
      js "Please enter a valid portfolio URL" := by decide
  simp only [validateEnhancedForm, ite_append_singleton, List.mem_append, mem_ite_singleton,
    n2, n3, n4, n5, n6, n7, n8, and_false, or_false, and_true, List.nil_append,
    List.not_mem_nil, false_or]
  cases h : formData "name" with
  | none => simp [truthy]
  | some name =>
    cases name with
    | nil => simp [truthy, toStr]
    | cons a l => simp [truthy, toStr]

/-- C8, counterexample. A name of two spaces has trimmed length 0, yet the
validator does not report the name error. -/
theorem name_whitespace_accepted :
    (trim (js "  ")).length = 0 ∧
    js "Name must be at least 2 characters long" ∉
      validateEnhancedForm (fun _ => true) (fromEntries [("name", js "  ")]) := by
  decide

/-! ## Submit handlers -/

/-- C2. For both submit handlers, when the validation of the form finds an
error, no step of the handler is a network request or disables the generate
button, and the button is left as it was. -/
theorem submit_invalid_stays_idle (isValidURL : JSString → Bool) (formId : FormId)
    (data : FormData) (net : NetOutcome) (page : View)
    (h : hasValidationError isValidURL formId data = true) :
    (∀ a ∈ submit isValidURL formId data net, a.isFetch = false ∧ a.isDisable = false) ∧
      (page.run (submit isValidURL formId data net)).btnDisabled = page.btnDisabled := by
  cases formId
  · simp only [hasValidationError, decide_eq_true_eq] at h
    simp [submit, resumeSubmit, h, Action.isFetch, Action.isDisable, View.run, View.step]
  · simp only [hasValidationError, Bool.or_eq_true, decide_eq_true_eq] at h
    by_cases hm : (missingFields data).length > 0
    · simp [submit, coverLetterSubmit, hm, Action.isFetch, Action.isDisable, View.run,
        View.step]
    · rcases h with h | h
      · exact absurd h hm
      · simp [submit, coverLetterSubmit, hm, h, Action.isFetch, Action.isDisable, View.run,
          View.step]

/-- C2, witness: a cover-letter submission without a company and with a
malformed email, and a resume submission of an empty form. -/
theorem submit_invalid_stays_idle_witness :
    ((∀ a ∈ submit (fun _ => true) .coverLetterForm
          (fromEntries [("name", js "Jane"), ("email", js "bad")])
          (.rejected (js "Failed to fetch")),
        a.isFetch = false ∧ a.isDisable = false) ∧
      (restingPage.run (submit (fun _ => true) .coverLetterForm
          (fromEntries [("name", js "Jane"), ("email", js "bad")])
          (.rejected (js "Failed to fetch")))).btnDisabled = restingPage.btnDisabled) :=
  submit_invalid_stays_idle _ .coverLetterForm _ _ restingPage (by decide)

theorem run_finallyBlock (page : View) (actions : List Action) :
    (page.run (actions ++ finallyBlock)).btnDisabled = false ∧
      (page.run (actions ++ finallyBlock)).btnTextDisplay = js "inline" ∧
      (page.run (actions ++ finallyBlock)).loadingDisplay = js "none" := by
  simp [View.run, List.foldl_append, finallyBlock, View.step]

theorem run_finallyBlock_resultDisplay (page : View) (actions : List Action) :
    (page.run (actions ++ finallyBlock)).resultDisplay = (page.run actions).resultDisplay := by
  simp [View.run, List.foldl_append, finallyBlock, View.step]

/-- C3. For both submit handlers, for valid form data and every outcome of the
network call, the page after the handler has the generate button enabled, its
text label shown and the loading indicator hidden; when the fetch is rejected
the only alert is the error message and the result section keeps the display
it had. -/
theorem submit_valid_finalizes (isValidURL : JSString → Bool) (formId : FormId)
    (data : FormData) (net : NetOutcome) (page : View)
    (h : hasValidationError isValidURL formId data = false) :
    (page.run (submit isValidURL formId data net)).btnDisabled = false ∧
      (page.run (submit isValidURL formId data net)).btnTextDisplay = js "inline" ∧
      (page.run (submit isValidURL formId data net)).loadingDisplay = js "none" ∧
      ∀ message, net = .rejected message →
        alerts (submit isValidURL formId data net) = [errorLabel formId ++ message] ∧
        (page.run (submit isValidURL formId data net)).resultDisplay = page.resultDisplay := by
  cases formId
  · simp only [hasValidationError, decide_eq_false_iff_not] at h
    simp only [submit, resumeSubmit, h, if_false]
    refine ⟨(run_finallyBlock _ _).1, (run_finallyBlock _ _).2.1, (run_finallyBlock _ _).2.2,
      ?_⟩
    rintro message rfl
    refine ⟨?_, ?_⟩
    · simp [alerts, catchBlock, finallyBlock, Action.alertText, errorLabel]
    · rw [run_finallyBlock_resultDisplay]
      simp [View.run, catchBlock, View.step]
  · simp only [hasValidationError, Bool.or_eq_false_iff, decide_eq_false_iff_not,
      Bool.not_eq_false_eq_eq_true, Bool.not_eq_eq_eq_not, Bool.not_false] at h
    obtain ⟨hm, he⟩ := h
    simp only [submit, coverLetterSubmit, hm, he, if_false, Bool.not_true, Bool.false_eq_true]
    refine ⟨(run_finallyBlock _ _).1, (run_finallyBlock _ _).2.1, (run_finallyBlock _ _).2.2,
      ?_⟩
    rintro message rfl
    refine ⟨?_, ?_⟩
    · simp [alerts, catchBlock, finallyBlock, Action.alertText, errorLabel]
    · rw [run_finallyBlock_resultDisplay]
      simp [View.run, catchBlock, View.step]

/-- C3, witness: a valid cover-letter submission whose fetch is rejected,
from a page in its resting state. -/
theorem submit_valid_finalizes_witness :
    (restingPage.run (submit (fun _ => true) .coverLetterForm
        (fromEntries [("name", js "Jane"), ("email", js "jane@example.com"),
          ("company", js "Acme"), ("position", js "Engineer"),
          ("experience", js "Ten years"), ("skills", js "Lean")])
        (.rejected (js "Failed to fetch")))).btnDisabled = false ∧
      alerts (submit (fun _ => true) .coverLetterForm
        (fromEntries [("name", js "Jane"), ("email", js "jane@example.com"),
          ("company", js "Acme"), ("position", js "Engineer"),
          ("experience", js "Ten years"), ("skills", js "Lean")])
        (.rejected (js "Failed to fetch"))) =
        [js "Error generating cover letter: Failed to fetch"] :=
  have h := submit_valid_finalizes (fun _ => true) .coverLetterForm
    (fromEntries [("name", js "Jane"), ("email", js "jane@example.com"),
      ("company", js "Acme"), ("position", js "Engineer"),
      ("experience", js "Ten years"), ("skills", js "Lean")])
    (.rejected (js "Failed to fetch")) restingPage (by decide)
  ⟨h.1, (h.2.2.2 _ rfl).1⟩

theorem isPrefixOf_append_self (p t : JSString) : p.isPrefixOf (p ++ t) = true := by
  induction p with
  | nil => simp [List.isPrefixOf]
  | cons a p ih => simp [List.isPrefixOf, ih]

theorem includes_nil (s : JSString) : includes s [] = true := by
  cases s <;> simp [includes, List.isPrefixOf]

theorem includes_append_right (s t p : JSString) (h : includes s p = true) :
    includes (t ++ s) p = true := by
  induction t with
  | nil => simpa using h
  | cons a t ih => simp [includes, ih]

theorem includes_self_append (p t : JSString) : includes (p ++ t) p = true := by
  cases p with
  | nil => exact includes_nil _
  | cons a p =>
    have := isPrefixOf_append_self (a :: p) t
    simp only [List.cons_append] at this ⊢
    simp [includes, this]

theorem join_cons_cons (sep x y : JSString) (l : List JSString) :
    join sep (x :: y :: l) = x ++ (sep ++ join sep (y :: l)) := by
  simp [join, List.intercalate, List.intersperse]

theorem includes_join (sep : JSString) (l : List JSString) (m : JSString) (hm : m ∈ l) :
    includes (join sep l) m = true := by
  induction l with
  | nil => simp at hm
  | cons x l ih =>
    cases l with
    | nil =>
      have : m = x := by simpa using hm
      subst this
      have := includes_self_append m []
      simpa [join, List.intercalate, List.intersperse] using this
    | cons y l =>
      rw [join_cons_cons]
      rcases List.mem_cons.1 hm with rfl | hm
      · exact includes_self_append _ _
      · exact includes_append_right _ _ _ (includes_append_right _ _ _ (ih hm))

/-- C10, as amended. When the validation of a form finds an error the handler
raises a single alert. On the resume form its text is the header followed by
the joined messages of all violated rules, each of which occurs in it. On the
cover-letter form, when required fields are missing its text is the header
followed by the joined names of all missing fields, each of which occurs in
it; when none is missing its text is the email-format message. -/
theorem submit_validation_alert (isValidURL : JSString → Bool) (formId : FormId)
    (data : FormData) (net : NetOutcome)
    (h : hasValidationError isValidURL formId data = true) :
    ∃ text, alerts (submit isValidURL formId data net) = [text] ∧
      (formId = .resumeForm →
        text = js "Please fix the following errors:\n• " ++
          join (js "\n• ") (validateEnhancedForm isValidURL data) ∧
        ∀ m ∈ validateEnhancedForm isValidURL data, includes text m = true) ∧
      (formId = .coverLetterForm → missingFields data ≠ [] →
        text = js "Please fill in all required fields: " ++
          join (js ", ") ((missingFields data).map js) ∧
        ∀ field ∈ requiredFields, isMissing data field = true →
          includes text (js field) = true) ∧
      (formId = .coverLetterForm → missingFields data = [] →
        text = js "Please enter a valid email address") := by
  cases formId
  · simp only [hasValidationError, decide_eq_true_eq] at h
    refine ⟨_, ?_, fun _ => ⟨rfl, ?_⟩, fun hc => absurd hc (by decide),
      fun hc => absurd hc (by decide)⟩
    · simp [submit, resumeSubmit, h, alerts, Action.alertText]
    · intro m hm
      exact includes_append_right _ _ _ (includes_join _ _ _ hm)
  · simp only [hasValidationError, Bool.or_eq_true, decide_eq_true_eq] at h
    by_cases hm : (missingFields data).length > 0
    · have hne : missingFields data ≠ [] := by
        intro e
        simp [e] at hm
      refine ⟨_, ?_, fun hc => absurd hc (by decide), fun _ _ => ⟨rfl, ?_⟩,
        fun _ e => absurd e hne⟩
      · simp [submit, coverLetterSubmit, hm, alerts, Action.alertText]
      · intro field hf hmiss
        apply includes_append_right
        apply includes_join
        exact List.mem_map.2 ⟨field, List.mem_filter.2 ⟨hf, hmiss⟩, rfl⟩
    · have he : isValidEmail (toStr (data "email")) = false := by
        rcases h with h | h
        · exact absurd h hm
        · simpa using h
      have hnil : missingFields data = [] := by
        cases hl : missingFields data with
        | nil => rfl
        | cons a l => simp [hl] at hm
      refine ⟨_, ?_, fun hc => absurd hc (by decide), fun _ hne => absurd hnil hne,
        fun _ _ => rfl⟩
      simp [submit, coverLetterSubmit, hm, he, alerts, Action.alertText]

/-- C10, witness: a cover-letter submission with four fields missing. -/
theorem submit_validation_alert_witness :
    ∃ text, alerts (submit (fun _ => true) .coverLetterForm
        (fromEntries [("name", js "Jane"), ("email", js "bad")])
        (.rejected (js "Failed to fetch"))) = [text] ∧
      includes text (js "company") = true ∧ includes text (js "skills") = true :=
  have ⟨text, h1, _, h2, _⟩ := submit_validation_alert (fun _ => true) .coverLetterForm
    (fromEntries [("name", js "Jane"), ("email", js "bad")])
    (.rejected (js "Failed to fetch")) (by decide)
  ⟨text, h1, (h2 rfl (by decide)).2 "company" (by decide) (by decide),
    (h2 rfl (by decide)).2 "skills" (by decide) (by decide)⟩

/-- C10, counterexample. A cover-letter submission that lacks the company and
carries the malformed email `bad` violates two rules, but the single alert
names the missing field only: the email-format message is not part of it. -/
theorem coverLetter_alert_omits_email :
    isMissing (fromEntries [("name", js "Jane"), ("email", js "bad"),
        ("position", js "Engineer"), ("experience", js "Ten years"),
        ("skills", js "Lean")]) "company" = true ∧
    isValidEmail (js "bad") = false ∧
    alerts (coverLetterSubmit (fromEntries [("name", js "Jane"), ("email", js "bad"),
        ("position", js "Engineer"), ("experience", js "Ten years"),
        ("skills", js "Lean")]) (.rejected (js "Failed to fetch"))) =
      [js "Please fill in all required fields: company"] ∧
    includes (js "Please fill in all required fields: company")
      (js "Please enter a valid email address") = false := by
  decide

/-! ## Progress -/

theorem foldlM_countResume (querySelector : JSString → Option Bool) (l : List Input) (n : Nat)
    (hq : ∀ input ∈ l, (input.type == js "radio") = true →
      querySelector (checkedSelector input.name) ≠ none) :
    l.foldlM (countResume querySelector) n =
      some (n + l.countP (isCounted querySelector .resumeForm)) := by
  induction l generalizing n with
  | nil => simp
  | cons i l ih =>
    have ih' := fun m => ih m (fun input hi => hq input (List.mem_cons_of_mem _ hi))
    have hqi := hq i (List.mem_cons_self _ _)
    rw [List.foldlM_cons, List.countP_cons]
    by_cases hr : (i.type == js "radio") = true
    · cases hs : querySelector (checkedSelector i.name) with
      | none => exact absurd hs (hqi hr)
      | some found =>
        cases found with
        | true =>
          simp only [countResume, isCounted, hr, hs, if_true, Option.some_bind, ih']
          simp
          omega
        | false =>
          simp only [countResume, isCounted, hr, hs, if_true, Option.some_bind, ih']
          simp
    · by_cases ht : (trim i.value).isEmpty = true
      · simp only [countResume, isCounted, hr, ht, if_true, Option.some_bind, ih']
        simp
      · simp only [countResume, isCounted, hr, ht, if_true, Option.some_bind, ih']
        simp
        omega

theorem foldl_countRequired (querySelector : JSString → Option Bool) (l : List Input)
    (n : Nat) :
    l.foldl countRequired n = n + l.countP (isCounted querySelector .coverLetterForm) := by
  induction l generalizing n with
  | nil => simp
  | cons i l ih =>
    rw [List.foldl_cons, ih, List.countP_cons]
    by_cases ht : (trim i.value).isEmpty = true
    · simp [countRequired, isCounted, ht]
    · simp [countRequired, isCounted, ht]; omega

theorem ratio_bounds (f t : Nat) (hft : f ≤ t) (ht : 0 < t) :
    0 ≤ ((f : ℚ) / (t : ℚ)) * 100 ∧ ((f : ℚ) / (t : ℚ)) * 100 ≤ 100 ∧
      (((f : ℚ) / (t : ℚ)) * 100 = 100 ↔ f = t) := by
  have ht' : (0 : ℚ) < t := by exact_mod_cast ht
  have hft' : (f : ℚ) ≤ t := by exact_mod_cast hft
  have hf0 : (0 : ℚ) ≤ f := by exact_mod_cast Nat.zero_le f
  refine ⟨by positivity, ?_, ?_⟩
  · have : (f : ℚ) / t ≤ 1 := (div_le_one ht').2 hft'
    linarith
  · constructor
    · intro h
      have h1 : (f : ℚ) / t = 1 := by linarith
      have h2 : (f : ℚ) = t := by
        rw [div_eq_iff (ne_of_gt ht')] at h1
        linarith
      exact_mod_cast h2
    · rintro rfl
      rw [div_self (ne_of_gt ht')]
      norm_num

/-- C9, as amended. For both forms and every non-empty tracked set on which no
selector query throws, `calculateProgress` computes a percentage between 0 and
100, and it is exactly 100 if and only if every tracked field is counted,
where on the resume form a field of type `radio` is counted iff
`document.querySelector` finds an element for
`input[name="<its name>"]:checked` and any other field iff its trimmed value
is non-empty, and on the cover-letter form every tracked field, radio button
or not, is counted iff its trimmed value is non-empty. -/
theorem calculateProgress_bounds (querySelector : JSString → Option Bool) (formId : FormId)
    (allImportantInputs requiredInputs : List Input)
    (h : 0 < totalInputs formId allImportantInputs requiredInputs)
    (hq : formId = .resumeForm → ∀ input ∈ allImportantInputs,
      (input.type == js "radio") = true →
        querySelector (checkedSelector input.name) ≠ none) :
    ∃ progress,
      calculateProgress querySelector formId allImportantInputs requiredInputs =
        some progress ∧
      0 ≤ progress ∧ progress ≤ 100 ∧
      (progress = 100 ↔
        ∀ input ∈ tracked formId allImportantInputs requiredInputs,
          isCounted querySelector formId input = true) := by
  cases formId
  · simp only [totalInputs, if_true] at h
    have hb := ratio_bounds (allImportantInputs.countP (isCounted querySelector .resumeForm))
      allImportantInputs.length (List.countP_le_length _) h
    refine ⟨_, ?_, hb.1, hb.2.1, hb.2.2.trans List.countP_eq_length⟩
    simp only [calculateProgress, filledInputs, totalInputs, if_true,
      foldlM_countResume querySelector allImportantInputs 0 (hq rfl), Nat.zero_add]
  · have hne : ¬ (FormId.coverLetterForm = FormId.resumeForm) := by decide
    simp only [totalInputs, hne, if_false] at h
    have hb := ratio_bounds
      (requiredInputs.countP (isCounted querySelector .coverLetterForm))
      requiredInputs.length (List.countP_le_length _) h
    refine ⟨_, ?_, hb.1, hb.2.1, ?_⟩
    · simp only [calculateProgress, filledInputs, totalInputs, hne, if_false,
        foldl_countRequired querySelector, Nat.zero_add]
    · simp only [tracked, hne, if_false]
      exact hb.2.2.trans List.countP_eq_length

/-- C9, witness: a resume form tracking a filled name and an unchecked
template radio button, on a page that holds these two inputs. -/
theorem calculateProgress_bounds_witness :
    ∃ progress,
      calculateProgress
        (queryChecked [⟨js "text", some (js "name"), js "Jane", false⟩,
          ⟨js "radio", some (js "template"), js "modern", false⟩])
        .resumeForm
        [⟨js "text", some (js "name"), js "Jane", false⟩,
          ⟨js "radio", some (js "template"), js "modern", false⟩] [] = some progress ∧
      0 ≤ progress ∧ progress ≤ 100 :=
  have ⟨progress, h1, h2, h3, _⟩ := calculateProgress_bounds
    (queryChecked [⟨js "text", some (js "name"), js "Jane", false⟩,
      ⟨js "radio", some (js "template"), js "modern", false⟩])
    .resumeForm
    [⟨js "text", some (js "name"), js "Jane", false⟩,
      ⟨js "radio", some (js "template"), js "modern", false⟩] []
    (by decide) (fun _ _ _ _ => by simp [queryChecked])
  ⟨progress, h1, h2, h3⟩

theorem calculateProgress_of_filled (querySelector : JSString → Option Bool)
    (formId : FormId) (allImportantInputs requiredInputs : List Input) (filled total : Nat)
    (hf : filledInputs querySelector formId allImportantInputs requiredInputs = some filled)
    (ht : totalInputs formId allImportantInputs requiredInputs = total) :
    calculateProgress querySelector formId allImportantInputs requiredInputs =
      some (((filled : ℚ) / (total : ℚ)) * 100) := by
  simp [calculateProgress, hf, ht]

/-- C9, counterexample. Four pages on which the claim fails. (1) Cover-letter
form, one tracked radio button `tone`, not checked, with the value `on`: it is
counted by its value, the percentage is 100 although no radio button of its
name is checked. (2) Resume form, one tracked radio button `template`, not
checked, next to a checked checkbox of the same name: the query finds the
checkbox, the percentage is 100 although no radio button of that name is
checked. (3) Resume form, one tracked radio button that is checked and has no
`name` attribute: the query for `input[name=""]:checked` finds nothing, the
percentage is 0 although the radio button is checked. (4) When the engine
rejects the selector of a tracked radio button, as it does for the name `a"b`,
no percentage is computed. -/
theorem calculateProgress_radio_counterexample :
    (calculateProgress (queryChecked [⟨js "radio", some (js "tone"), js "on", false⟩])
        .coverLetterForm [] [⟨js "radio", some (js "tone"), js "on", false⟩] = some 100 ∧
      filledPerSpec [⟨js "radio", some (js "tone"), js "on", false⟩]
        ⟨js "radio", some (js "tone"), js "on", false⟩ = false) ∧
    (calculateProgress
        (queryChecked [⟨js "radio", some (js "template"), js "modern", false⟩,
          ⟨js "checkbox", some (js "template"), js "on", true⟩])
        .resumeForm [⟨js "radio", some (js "template"), js "modern", false⟩] [] = some 100 ∧
      filledPerSpec [⟨js "radio", some (js "template"), js "modern", false⟩,
          ⟨js "checkbox", some (js "template"), js "on", true⟩]
        ⟨js "radio", some (js "template"), js "modern", false⟩ = false) ∧
    (calculateProgress (queryChecked [⟨js "radio", none, js "on", true⟩])
        .resumeForm [⟨js "radio", none, js "on", true⟩] [] = some 0 ∧
      filledPerSpec [⟨js "radio", none, js "on", true⟩]
        ⟨js "radio", none, js "on", true⟩ = true) ∧
    calculateProgress (fun _ => none) .resumeForm
      [⟨js "radio", some (js "a\"b"), js "on", false⟩] [] = none := by
  refine ⟨⟨?_, by decide⟩, ⟨?_, by decide⟩, ⟨?_, by decide⟩, ?_⟩
  · rw [calculateProgress_of_filled _ _ _ _ 1 1 (by decide) (by decide)]
    norm_num
  · rw [calculateProgress_of_filled _ _ _ _ 1 1 (by decide) (by decide)]
    norm_num
  · rw [calculateProgress_of_filled _ _ _ _ 0 1 (by decide) (by decide)]
    norm_num
  · have hf : filledInputs (fun _ => none) .resumeForm
        [⟨js "radio", some (js "a\"b"), js "on", false⟩] [] = none := by decide
    simp [calculateProgress, hf]

end ResumeGenerator
